import Mathlib

/-!
Verification of the streaming chat session core of `react-chatbot-openai`.

The development shallowly embeds the two source modules that the claims are
about:

* `src/provider/openaiProvider.tsx` — the Completion Client: `init`, `prompt`
  and the `ReadableStream` producer that accumulates the assistant reply and
  commits it to the client's internal message history.
* `src/hooks/useChatbot.tsx` — the Session Core: `sendMessage` (limit check,
  user message, placeholder, chunk consumption loop, failure classification),
  `abortChatMessage`, `getErrorMessage`, and the `storage` persistence helpers.

The single-threaded cooperative runs of `sendMessage` are embedded as pure
functions over an explicit state; the nondeterministic environment (the chunks
produced by the OpenAI stream, the moment the user's abort is observed, an
error thrown by the transport) is passed in as explicit parameters.  Fire-and-
forget persistence writes (`setTimeout(() => saveMessages(...), 0)`) are
modelled in program order; no theorem below depends on the persisted snapshot
of a `sendMessage` run.
-/

namespace Chatbot

/-- `Message.role` in `useChatbot.tsx` (`"user" | "assistant" | "system" | "error"`). -/
inductive Role where
  | user
  | assistant
  | system
  | error
deriving DecidableEq

/-- The `Message` record of `useChatbot.tsx`: `{ role, content, timestamp, error? }`.
`isErr` embeds the optional `error` field (absent ↦ `false`). -/
structure Message where
  role : Role
  content : String
  timestamp : Nat
  isErr : Bool
deriving DecidableEq

/-- The provider-side `OpenAIMessage` record of `openaiProvider.tsx`
(`role` is only ever `system`/`user`/`assistant` there). -/
structure OAIMessage where
  role : Role
  content : String
deriving DecidableEq

/-- A JavaScript `Error` value as inspected by both modules: its `name`
(e.g. `"AbortError"`) and its `message`. -/
structure JsError where
  name : String
  message : String
deriving DecidableEq

/-! ### String helpers (models of the JS string operations used by the code) -/

/-- Whitespace as recognised by `String.prototype.trim` on the characters that
occur in this development. -/
def isWs (c : Char) : Bool :=
  c == ' ' || c == '\t' || c == '\n' || c == '\r'

/-- Truthiness test `s.trim() !== ""` turned around: `trimEmpty s` iff the JS
expression `s.trim()` is the empty string, i.e. every character of `s` is
whitespace.  The code only ever uses `.trim()` in boolean position
(`chunk.trim()` and `!content.trim()`), so this captures exactly those uses. -/
def trimEmpty (s : String) : Bool := s.data.all isWs

/-- JS `String.prototype.toLowerCase` (ASCII letters; the literals the code
compares against are ASCII-lowercase already). -/
def strToLower (s : String) : String := ⟨s.data.map Char.toLower⟩

/-- `pat` is a prefix of `l` (character lists). -/
def listIsPre : List Char → List Char → Bool
  | [], _ => true
  | _ :: _, [] => false
  | a :: as, b :: bs => a == b && listIsPre as bs

/-- `pat` occurs somewhere in `l` (character lists). -/
def listHasSub (pat : List Char) : List Char → Bool
  | [] => listIsPre pat []
  | c :: cs => listIsPre pat (c :: cs) || listHasSub pat cs

/-- JS `s.includes(pat)`. -/
def strContains (s pat : String) : Bool := listHasSub pat.data s.data

/-- Concatenation of a list of strings (the accumulated assistant reply). -/
def joinStr : List String → String
  | [] => ""
  | s :: rest => s ++ joinStr rest

/-! ### Completion Client (`openaiProvider.tsx`) -/

/-- `init(initialPrompts)`: `messages.length = 0`, then, if `initialPrompts`
is truthy (non-empty), push one system entry.  The pre-existing history is
discarded unconditionally, hence the ignored argument. -/
def providerInit (_hist : List OAIMessage) (initialPrompts : String) : List OAIMessage :=
  if initialPrompts = "" then [] else [⟨Role.system, initialPrompts⟩]

/-- One chunk from the OpenAI SDK stream: `content` embeds
`chunk.choices[0]?.delta?.content || ''` (so `""` means "no content"), and
`finishStop` embeds `chunk.choices[0]?.finish_reason === 'stop'`. -/
structure Chunk where
  content : String
  finishStop : Bool
deriving DecidableEq

/-- How the SDK's async iterator terminates after the listed chunks:
it is exhausted (`natural`) or it throws (`errThrow`). -/
inductive StreamEnd where
  | natural
  | errThrow (e : JsError)
deriving DecidableEq

/-- Observable outcome of the `ReadableStream` built in `prompt`:
`closed emitted committed` — the fragments enqueued for the consumer and the
assistant entry pushed onto the provider history (if any) before
`controller.close()`; `errored emitted e` — fragments enqueued before
`controller.error(e)`. -/
inductive StreamResult where
  | closed (emitted : List String) (committed : Option String)
  | errored (emitted : List String) (e : JsError)
deriving DecidableEq

/-- The fragments the consumer can read from the stream. -/
def emittedOf : StreamResult → List String
  | .closed es _ => es
  | .errored es _ => es

/-- `signal.aborted` as observed at loop iteration `i`: the abort is
observed from iteration `abortAt` onward (`none` = never). -/
def abortedAt (abortAt : Option Nat) (i : Nat) : Bool :=
  match abortAt with
  | none => false
  | some k => decide (k ≤ i)

/-- The body of `start(controller)` in `prompt`'s `ReadableStream`:
iterate over the SDK chunks; at each iteration, if `signal?.aborted`, close
without committing; otherwise accumulate/enqueue non-empty content, and on
`finish_reason === 'stop'` push `{role:'assistant', content: acc}` and close.
If the iterator is exhausted, push the accumulated text iff it is non-empty.
If the iterator throws: close when aborted, else `controller.error`. -/
def runStream : List Chunk → StreamEnd → Option Nat → Nat → String → StreamResult
  | [], e, abortAt, i, acc =>
    match e with
    | .natural => .closed [] (if acc = "" then none else some acc)
    | .errThrow err => if abortedAt abortAt i then .closed [] none else .errored [] err
  | c :: rest, e, abortAt, i, acc =>
    if abortedAt abortAt i then .closed [] none
    else
      let emit := if c.content = "" then [] else [c.content]
      let acc' := if c.content = "" then acc else acc ++ c.content
      if c.finishStop then .closed emit (some acc')
      else
        match runStream rest e abortAt (i + 1) acc' with
        | .closed es comm => .closed (emit ++ es) comm
        | .errored es err => .errored (emit ++ es) err

/-- The `catch` block at the bottom of `prompt`: classification of an error
thrown by `openai.chat.completions.create` (all thrown values are `Error`
instances in the runs modelled here). -/
def providerClassify (e : JsError) (signalAborted : Bool) : String :=
  if signalAborted then "Request aborted by user"
  else if e.name = "AbortError" then "Request aborted by user"
  else if strContains e.message "quota" then
    "Cota de uso da OpenAI foi excedida. Verifique seu plano ou aguarde."
  else if strContains e.message "rate" then
    "Muitas requisições. Aguarde um momento antes de tentar novamente."
  else if strContains e.message "api_key" then
    "Chave de API inválida. Verifique sua OPENAI_API_KEY."
  else e.message

/-- Environment of one `prompt` call: either the `create` call throws
(`createThrows`, with `signal.aborted` at that moment), or it returns the SDK
stream (`streaming`, with the chunks, how the iterator ends, and when the
abort is observed). -/
inductive PromptOutcome where
  | createThrows (e : JsError) (abortedDuring : Bool)
  | streaming (chunks : List Chunk) (endE : StreamEnd) (abortAt : Option Nat)
deriving DecidableEq

/-- The assistant entry the stream pushes onto the provider history. -/
def commitOf (r : StreamResult) : List OAIMessage :=
  match r with
  | .closed _ (some c) => [⟨Role.assistant, c⟩]
  | _ => []

/-- Result of one `prompt(text, signal)` call: the provider's internal
`messages` history after the call's stream has fully settled, the `messages`
array as mapped into the `create` request (`payload`), and either the thrown
error's message or the stream handed back to the caller. -/
structure PromptResult where
  history : List OAIMessage
  payload : List OAIMessage
  result : Except String StreamResult

/-- `prompt(text, signal)`: push `{role:'user', content:text}` first, then
issue the completion call with the entire history as payload.  No path —
including every throw path of the `catch` block — removes the pushed user
entry. -/
def providerPrompt (hist : List OAIMessage) (text : String) (out : PromptOutcome) :
    PromptResult :=
  let hist1 := hist ++ [⟨Role.user, text⟩]
  match out with
  | .createThrows e ab => ⟨hist1, hist1, .error (providerClassify e ab)⟩
  | .streaming chunks endE abortAt =>
      let r := runStream chunks endE abortAt 0 ""
      ⟨hist1 ++ commitOf r, hist1, .ok r⟩

/-! ### Session Core (`useChatbot.tsx`) -/

/-- `getErrorMessage(error)` of `useChatbot.tsx` for `Error` instances (every
error reaching it in the runs modelled here is an `Error`). -/
def getErrorMessage (e : JsError) : String :=
  let m := strToLower e.message
  if strContains m "api key" || strContains m "api_key" then
    "Chave de API da OpenAI inválida. Verifique sua OPENAI_API_KEY no arquivo .env"
  else if strContains m "quota" || strContains m "insufficient_quota" then
    "Cota de uso da OpenAI foi excedida. Verifique seu plano ou adicione créditos."
  else if strContains m "rate" then
    "Muitas requisições. Aguarde um momento antes de tentar novamente."
  else if strContains m "failed to fetch" || strContains m "network" then
    "Erro de conexão. Verifique sua internet e tente novamente."
  else if strContains m "limite de mensagens atingido" then
    "Você atingiu o limite de mensagens desta conversa. Limpe o chat para continuar."
  else if strContains m "request aborted" || strContains m "aborted" then
    "Mensagem cancelada pelo usuário."
  else if strContains m "timeout" then
    "A requisição demorou muito para responder. Tente novamente."
  else if strContains m "model" && strContains m "does not exist" then
    "Modelo especificado não existe ou você não tem acesso a ele."
  else e.message

/-- Session Core state: the in-memory `messages`, the `loading` flag, and the
logical content of the `localStorage` snapshot (`stored`). -/
structure ChatState where
  messages : List Message
  loading : Bool
  stored : List Message
deriving DecidableEq

/-- `saveMessages` filters system-role messages before writing to storage. -/
def stripSystem (ms : List Message) : List Message :=
  ms.filter (fun m => !decide (m.role = Role.system))

/-- The error `Message` built by `addErrorMessage`. -/
def mkErrorMessage (e : JsError) (now : Nat) : Message :=
  ⟨Role.error, getErrorMessage e, now, true⟩

/-- The error thrown by the message-limit precondition check. -/
def limitError : JsError := ⟨"Error", "Limite de mensagens atingido"⟩

/-- The error thrown when the stream completes with `hasContent` still false. -/
def emptyCompletionError : JsError := ⟨"Error", "Nenhuma resposta foi gerada pelo modelo"⟩

/-- The cancellation notice appended by `abortChatMessage`. -/
def cancelMessage (now : Nat) : Message :=
  ⟨Role.error, "Mensagem cancelada. Você pode enviar uma nova mensagem.", now, true⟩

/-- `abortChatMessage()`: appends the cancellation notice and persists.
(The signalling through the `AbortController` is modelled by the `abortAt` /
`cancelAt` parameters of `runStream` / `sendMessage`.) -/
def abortChatMessage (st : ChatState) (now : Nat) : ChatState :=
  let updated := st.messages ++ [cancelMessage now]
  { st with messages := updated, stored := stripSystem updated }

/-- One `setMessages` update of the chunk loop: append the chunk text to the
last message's content, but only when the last message is assistant-role. -/
def applyChunk (msgs : List Message) (chunk : String) : List Message :=
  match msgs.getLast? with
  | some last =>
      if last.role = Role.assistant then
        msgs.dropLast ++ [{ last with content := last.content ++ chunk }]
      else msgs
  | none => msgs

/-- One iteration of the `while (true)` read loop: update `hasContent`
(`if (chunk.trim()) hasContent = true`) and apply the chunk. -/
def chunkStep (p : List Message × Bool) (f : String) : List Message × Bool :=
  (applyChunk p.1 f, p.2 || !trimEmpty f)

/-- The read loop over a list of delivered fragments. -/
def foldFrags (msgs : List Message) (hasC : Bool) (frags : List String) :
    List Message × Bool :=
  frags.foldl chunkStep (msgs, hasC)

/-- The read loop with a possible user abort interleaved: `cancelAt = some k`
means `abortChatMessage` fires after `k` fragments have been applied, which
appends the cancellation notice to the live message list; fragments the
stream had already enqueued are still read afterwards (the `last.role ===
"assistant"` guard then drops their text, but `chunk.trim()` still updates
`hasContent`). -/
def consumeFrags (now : Nat) (frags : List String) (cancelAt : Option Nat)
    (msgs : List Message) : List Message × Bool :=
  match cancelAt with
  | none => foldFrags msgs false frags
  | some k =>
      let p := foldFrags msgs false (frags.take k)
      foldFrags (p.1 ++ [cancelMessage now]) p.2 (frags.drop k)

/-- The guarded pop used by both catch branches: remove the trailing message
iff it is assistant-role and its content trims to empty. -/
def popIfTrailingEmptyAssistant (msgs : List Message) : List Message :=
  match msgs.getLast? with
  | some last =>
      if last.role = Role.assistant && trimEmpty last.content then msgs.dropLast
      else msgs
  | none => msgs

/-- The `catch (err)` block of `sendMessage`, returning the final
`(messages, stored)` pair.  Both branches end with `saveMessages(updatedMessages)`
(line 285), so the last storage write of the catch path is the stripped
user-updated list. -/
def catchHandler (msgs updatedMessages : List Message) (e : JsError) (now : Nat) :
    List Message × List Message :=
  if strContains e.message "aborted" then
    (popIfTrailingEmptyAssistant msgs, stripSystem updatedMessages)
  else
    (popIfTrailingEmptyAssistant msgs ++ [mkErrorMessage e now],
     stripSystem updatedMessages)

/-- Ordered events of a `sendMessage` run, for statements about *when* the
assistant placeholder is appended relative to the stream request. -/
inductive Ev where
  | appendUser
  | requestStream
  | appendPlaceholder
  | readChunks
  | settle
deriving DecidableEq

/-- Index of the first occurrence of `e` (length of the list if absent). -/
def idxOf (e : Ev) : List Ev → Nat
  | [] => 0
  | x :: xs => if x = e then 0 else idxOf e xs + 1

/-- Result of one `sendMessage` run: the final session state, the provider
history afterwards, the payload handed to the completion call (`none` when no
network call was made), whether the network was reached, the event trace, and
the in-memory messages at the moment the placeholder was appended (`none` when
it never was). -/
structure SendOutcome where
  state : ChatState
  provHist : List OAIMessage
  payload : Option (List OAIMessage)
  networkCalled : Bool
  trace : List Ev
  msgsAtPlaceholder : Option (List Message)

/-- The `messages.length > config.limit` rejection: append the classified
limit error, persist, return — `loading` untouched, no network call. -/
def rejectBranch (st : ChatState) (provHist : List OAIMessage) (now : Nat) :
    SendOutcome :=
  let updated := st.messages ++ [mkErrorMessage limitError now]
  { state := { st with messages := updated, stored := stripSystem updated },
    provHist := provHist, payload := none, networkCalled := false,
    trace := [], msgsAtPlaceholder := none }

/-- The path where `chatProvider.prompt` itself throws: no placeholder was
appended yet, the catch block runs on the user-updated list. -/
def errorBranch (updatedMessages : List Message) (prHist prPayload : List OAIMessage)
    (emsg : String) (now : Nat) : SendOutcome :=
  let p := catchHandler updatedMessages updatedMessages ⟨"Error", emsg⟩ now
  { state := { messages := p.1, loading := false, stored := p.2 },
    provHist := prHist, payload := some prPayload, networkCalled := true,
    trace := [.appendUser, .requestStream, .settle], msgsAtPlaceholder := none }

/-- The path where `prompt` returned a stream: append the empty assistant
placeholder, consume the fragments, then settle — on a stream error or on
`hasContent` still false the catch block runs, otherwise success. -/
def okBranch (updatedMessages : List Message) (prHist prPayload : List OAIMessage)
    (sr : StreamResult) (now : Nat) (cancelAt : Option Nat) : SendOutcome :=
  let messagesWithBot := updatedMessages ++ [⟨Role.assistant, "", now, false⟩]
  let p := consumeFrags now (emittedOf sr) cancelAt messagesWithBot
  let done : List Message × List Message :=
    match sr with
    | .errored _ e => catchHandler p.1 updatedMessages e now
    | .closed _ _ =>
        if p.2 then (p.1, stripSystem p.1)
        else catchHandler p.1 updatedMessages emptyCompletionError now
  { state := { messages := done.1, loading := false, stored := done.2 },
    provHist := prHist, payload := some prPayload, networkCalled := true,
    trace := [.appendUser, .requestStream, .appendPlaceholder, .readChunks, .settle],
    msgsAtPlaceholder := some messagesWithBot }

/-- `sendMessage(text)`: limit check, `loading = true`, append the user
message, call `prompt`, then either the throw path or the streaming path;
`finally { setLoading(false) }`. -/
def sendMessage (st : ChatState) (provHist : List OAIMessage) (limit : Nat)
    (text : String) (now : Nat) (out : PromptOutcome) (cancelAt : Option Nat) :
    SendOutcome :=
  if st.messages.length > limit then rejectBranch st provHist now
  else
    let updatedMessages := st.messages ++ [⟨Role.user, text, now, false⟩]
    let pr := providerPrompt provHist text out
    match pr.result with
    | .error emsg => errorBranch updatedMessages pr.history pr.payload emsg now
    | .ok sr => okBranch updatedMessages pr.history pr.payload sr now cancelAt

/-! ### Persistence Store (`storage` in `useChatbot.tsx`)

`storage.getMessages()` is `JSON.parse(localStorage.getItem(key) || "[]")`
inside a `try`/`catch` that returns `[]`.  `JSON.parse` is a platform builtin;
it is modelled by a small concrete JSON grammar and parser: a dynamic value
(`Json`) and a total parser that fails (`none` — the throwing case) on
syntactically invalid input.  Crucially, the code returns the parsed value
*unvalidated*, so `getMessages` returns `Json`, not `List Message`. -/

/-- A dynamic JSON value as produced by `JSON.parse`. -/
inductive Json where
  | null
  | bool (b : Bool)
  | num (n : Int)
  | str (s : String)
  | arr (xs : List Json)
  | obj (fields : List (String × Json))

/-- Skip JSON whitespace. -/
def skipWs (l : List Char) : List Char := l.dropWhile isWs

/-- Consume the literal `lit` from the front of `l`. -/
def dropLit : List Char → List Char → Option (List Char)
  | [], rest => some rest
  | _ :: _, [] => none
  | a :: as, b :: bs => if a = b then dropLit as bs else none

/-- Consume a digit run. -/
def takeDigits : List Char → List Char × List Char
  | [] => ([], [])
  | c :: cs =>
      if c.isDigit then
        let p := takeDigits cs
        (c :: p.1, p.2)
      else ([], c :: cs)

/-- Digits to a natural number. -/
def digitsToNat (ds : List Char) : Nat :=
  ds.foldl (fun n c => n * 10 + (c.toNat - 48)) 0

/-- Consume the body of a JSON string up to the closing quote
(escape sequences are not modelled; none occur in the inputs used below). -/
def takeStr : List Char → Option (List Char × List Char)
  | [] => none
  | c :: cs =>
      if c = '"' then some ([], cs)
      else
        match takeStr cs with
        | some (s, rest) => some (c :: s, rest)
        | none => none

mutual

/-- Fuel-bounded recursive-descent parser for one JSON value. -/
def parseVal : Nat → List Char → Option (Json × List Char)
  | 0, _ => none
  | fuel + 1, input0 =>
    let input := skipWs input0
    match dropLit ['n', 'u', 'l', 'l'] input with
    | some rest => some (Json.null, rest)
    | none =>
    match dropLit ['t', 'r', 'u', 'e'] input with
    | some rest => some (Json.bool true, rest)
    | none =>
    match dropLit ['f', 'a', 'l', 's', 'e'] input with
    | some rest => some (Json.bool false, rest)
    | none =>
    match input with
    | [] => none
    | c :: cs =>
      if c = '"' then
        match takeStr cs with
        | some (s, rest) => some (Json.str ⟨s⟩, rest)
        | none => none
      else if c = '[' then
        match skipWs cs with
        | ']' :: rest2 => some (Json.arr [], rest2)
        | rest =>
            match parseItems fuel rest with
            | some (items, rest2) => some (Json.arr items, rest2)
            | none => none
      else if c = '\x7b' then
        match skipWs cs with
        | '\x7d' :: rest2 => some (Json.obj [], rest2)
        | rest =>
            match parseFields fuel rest with
            | some (fs, rest2) => some (Json.obj fs, rest2)
            | none => none
      else if c = '-' then
        match takeDigits cs with
        | ([], _) => none
        | (ds, rest) => some (Json.num (-(digitsToNat ds : Int)), rest)
      else if c.isDigit then
        match takeDigits (c :: cs) with
        | (ds, rest) => some (Json.num (digitsToNat ds), rest)
      else none

/-- Comma-separated array items up to `]`. -/
def parseItems : Nat → List Char → Option (List Json × List Char)
  | 0, _ => none
  | fuel + 1, input =>
    match parseVal fuel input with
    | none => none
    | some (v, rest) =>
      match skipWs rest with
      | ',' :: rest2 =>
          match parseItems fuel rest2 with
          | some (vs, rest3) => some (v :: vs, rest3)
          | none => none
      | ']' :: rest2 => some ([v], rest2)
      | _ => none

/-- Comma-separated `"key": value` fields up to the closing brace. -/
def parseFields : Nat → List Char → Option (List (String × Json) × List Char)
  | 0, _ => none
  | fuel + 1, input =>
    match skipWs input with
    | '"' :: cs =>
      match takeStr cs with
      | none => none
      | some (k, rest) =>
        match skipWs rest with
        | ':' :: rest2 =>
          match parseVal fuel rest2 with
          | none => none
          | some (v, rest3) =>
            match skipWs rest3 with
            | ',' :: rest4 =>
                match parseFields fuel rest4 with
                | some (fs, rest5) => some ((⟨k⟩, v) :: fs, rest5)
                | none => none
            | c :: rest4 => if c = '\x7d' then some ([(⟨k⟩, v)], rest4) else none
            | _ => none
        | _ => none
    | _ => none

end

/-- `JSON.parse`: parse one value, require only trailing whitespace after it;
`none` models the thrown `SyntaxError`. -/
def jsonParse (s : String) : Option Json :=
  match parseVal (s.length + 1) s.data with
  | some (v, rest) => if skipWs rest = [] then some v else none
  | none => none

/-- `storage.getMessages()`: `JSON.parse(localStorage.getItem(key) || "[]")`
with the `catch` returning `[]`.  `none` models an absent key (`getItem`
returns `null`); note that JS `||` also replaces the empty string.  The parsed
value is returned without any shape validation. -/
def getMessages (stored : Option String) : Json :=
  let raw := match stored with
    | none => "[]"
    | some t => if t = "" then "[]" else t
  match jsonParse raw with
  | some j => j
  | none => Json.arr []

/-- Decode one persisted `Message` object (what a well-formed snapshot entry
looks like). -/
def roleFromString (s : String) : Option Role :=
  if s = "user" then some Role.user
  else if s = "assistant" then some Role.assistant
  else if s = "system" then some Role.system
  else if s = "error" then some Role.error
  else none

/-- First field with the given key. -/
def lookupField (fs : List (String × Json)) (k : String) : Option Json :=
  (fs.find? (fun p => p.1 = k)).map (fun p => p.2)

/-- Is the optional field literally `true`? -/
def isTrueJson : Option Json → Bool
  | some (Json.bool true) => true
  | _ => false

/-- Decode a JSON object into a `Message`. -/
def jsonToMsg (j : Json) : Option Message :=
  match j with
  | Json.obj fs =>
    match lookupField fs "role", lookupField fs "content", lookupField fs "timestamp" with
    | some (Json.str r), some (Json.str c), some (Json.num t) =>
        match roleFromString r with
        | some ro => if t < 0 then none else some ⟨ro, c, t.toNat, isTrueJson (lookupField fs "error")⟩
        | none => none
    | _, _, _ => none
  | _ => none

/-- Decode a list of JSON values into messages. -/
def jsonToMsgList : List Json → Option (List Message)
  | [] => some []
  | j :: js =>
    match jsonToMsg j, jsonToMsgList js with
    | some m, some ms => some (m :: ms)
    | _, _ => none

/-- Decode a JSON value into a message sequence: it must be an array of
well-formed message objects. -/
def jsonToMsgs (j : Json) : Option (List Message) :=
  match j with
  | Json.arr xs => jsonToMsgList xs
  | _ => none

/-! ### Supporting lemmas -/

/-- Appending a chunk when the trailing message is assistant-role extends its
content in place. -/
theorem applyChunk_concat (msgs0 : List Message) (b : Message) (f : String)
    (hb : b.role = Role.assistant) :
    applyChunk (msgs0 ++ [b]) f = msgs0 ++ [{ b with content := b.content ++ f }] := by
  simp [applyChunk, List.getLast?_concat, hb]

/-- The read loop over a trailing assistant message concatenates all
fragments into its content and ORs the non-whitespace flags. -/
theorem foldFrags_assistant (frags : List String) :
    ∀ (msgs0 : List Message) (b : Message), b.role = Role.assistant → ∀ (h : Bool),
    foldFrags (msgs0 ++ [b]) h frags
      = (msgs0 ++ [{ b with content := b.content ++ joinStr frags }],
         h || frags.any (fun f => !trimEmpty f)) := by
  induction frags with
  | nil =>
      intro msgs0 b hb h
      simp [foldFrags, joinStr]
  | cons f rest ih =>
      intro msgs0 b hb h
      have step : foldFrags (msgs0 ++ [b]) h (f :: rest)
          = foldFrags (applyChunk (msgs0 ++ [b]) f) (h || !trimEmpty f) rest := by
        simp [foldFrags, chunkStep]
      rw [step, applyChunk_concat msgs0 b f hb,
          ih msgs0 { b with content := b.content ++ f } hb (h || !trimEmpty f)]
      simp [joinStr, String.append_assoc, Bool.or_assoc]

/-- `trimEmpty` distributes over append. -/
theorem trimEmpty_append (a b : String) :
    trimEmpty (a ++ b) = (trimEmpty a && trimEmpty b) := by
  simp [trimEmpty, String.data_append, List.all_append]

/-- A concatenation of whitespace-only fragments is whitespace-only. -/
theorem trimEmpty_join (fs : List String) (h : ∀ f ∈ fs, trimEmpty f = true) :
    trimEmpty (joinStr fs) = true := by
  induction fs with
  | nil => decide
  | cons f rest ih =>
      have hf := h f (by simp)
      have hrest := ih (fun g hg => h g (by simp [hg]))
      simp [joinStr, trimEmpty_append, hf, hrest]

/-- A non-empty string stays non-empty under right-append. -/
theorem append_ne_empty_left (a b : String) (ha : a ≠ "") : a ++ b ≠ "" := by
  intro h
  apply ha
  have hd := congrArg String.data h
  simp only [String.data_append] at hd
  rcases List.append_eq_nil.mp (by simpa using hd) with ⟨h1, _⟩
  exact String.ext (by simpa using h1)

/-- Every fragment the provider stream enqueues is non-empty (`if (content)`). -/
theorem runStream_emitted_nonempty (chunks : List Chunk) :
    ∀ (e : StreamEnd) (ab : Option Nat) (i : Nat) (acc : String) (f : String),
    f ∈ emittedOf (runStream chunks e ab i acc) → f ≠ "" := by
  induction chunks with
  | nil =>
      intro e ab i acc f hf
      cases e with
      | natural => simp [runStream, emittedOf] at hf
      | errThrow err =>
          by_cases hab : abortedAt ab i = true <;>
            simp [runStream, emittedOf, hab] at hf
  | cons c rest ih =>
      intro e ab i acc f hf
      by_cases hab : abortedAt ab i = true
      · simp [runStream, emittedOf, hab] at hf
      · rw [runStream] at hf
        rw [Bool.not_eq_true] at hab
        rw [hab] at hf
        simp only [Bool.false_eq_true, if_false] at hf
        by_cases hstop : c.finishStop = true
        · rw [hstop] at hf
          simp only [if_true] at hf
          by_cases hc : c.content = "" <;> simp [emittedOf, hc] at hf
          rcases hf with rfl
          exact hc
        · rw [Bool.not_eq_true] at hstop
          rw [hstop] at hf
          simp only [Bool.false_eq_true, if_false] at hf
          rcases hr : runStream rest e ab (i + 1) (if c.content = "" then acc else acc ++ c.content) with
            ⟨es, comm⟩ | ⟨es, err⟩ <;>
          · rw [hr] at hf
            simp only [emittedOf] at hf
            by_cases hc : c.content = "" <;> simp [hc] at hf
            · exact ih e ab (i + 1) _ f (by rw [hr]; simpa [emittedOf] using hf)
            · rcases hf with rfl | hf
              · exact hc
              · exact ih e ab (i + 1) _ f (by rw [hr]; simpa [emittedOf] using hf)

/-- With no abort, a stream that closes committed exactly the concatenation of
what it emitted (or emitted nothing but whitespace: it committed `none` only
when the whole accumulation is empty). -/
theorem runStream_closed_commit (chunks : List Chunk) :
    ∀ (e : StreamEnd) (i : Nat) (acc : String) (es : List String) (comm : Option String),
    runStream chunks e none i acc = .closed es comm →
    comm = some (acc ++ joinStr es) ∨ (comm = none ∧ acc ++ joinStr es = "") := by
  induction chunks with
  | nil =>
      intro e i acc es comm h
      cases e with
      | natural =>
          by_cases hacc : acc = ""
          · simp [runStream, hacc] at h
            right
            simp [h, joinStr, hacc]
          · simp [runStream, hacc] at h
            left
            simp [← h.2, h.1, joinStr]
      | errThrow err => simp [runStream, abortedAt] at h
  | cons c rest ih =>
      intro e i acc es comm h
      rw [runStream] at h
      simp only [abortedAt, Bool.false_eq_true, if_false] at h
      by_cases hstop : c.finishStop = true
      · rw [hstop] at h
        simp only [if_true] at h
        by_cases hc : c.content = ""
        · simp [hc] at h
          obtain ⟨rfl, rfl⟩ := h
          left
          simp [joinStr]
        · simp [hc] at h
          obtain ⟨rfl, rfl⟩ := h
          left
          simp [joinStr]
      · rw [Bool.not_eq_true] at hstop
        rw [hstop] at h
        simp only [Bool.false_eq_true, if_false] at h
        rcases hr : runStream rest e none (i + 1) (if c.content = "" then acc else acc ++ c.content) with
          ⟨es', comm'⟩ | ⟨es', err⟩
        · rw [hr] at h
          simp only [StreamResult.closed.injEq] at h
          obtain ⟨hes, hcomm⟩ := h
          subst hes
          subst hcomm
          rcases ih e (i + 1) _ es' comm' hr with hsome | ⟨hnone, hempty⟩
          · left
            rw [hsome]
            by_cases hc : c.content = "" <;>
              simp [hc, joinStr, String.append_assoc]
          · right
            refine ⟨hnone, ?_⟩
            by_cases hc : c.content = ""
            · simpa [hc, joinStr] using hempty
            · simpa [hc, joinStr, String.append_assoc] using hempty
        · rw [hr] at h
          simp at h

/-- If the abort is observed at some chunk index (before the iterator is
exhausted) and no stop marker occurs before it, the stream closes without
committing anything. -/
theorem runStream_abort_no_commit (chunks : List Chunk) :
    ∀ (e : StreamEnd) (k i : Nat) (acc : String),
    i ≤ k → k < i + chunks.length →
    ((chunks.take (k - i)).all fun c => !c.finishStop) = true →
    ∃ es, runStream chunks e (some k) i acc = .closed es none := by
  induction chunks with
  | nil =>
      intro e k i acc hik hlt _
      simp only [List.length_nil, Nat.add_zero] at hlt
      omega
  | cons c rest ih =>
      intro e k i acc hik hlt hstops
      by_cases hki : k ≤ i
      · refine ⟨[], ?_⟩
        rw [runStream]
        simp [abortedAt, hki]
      · have hik' : i + 1 ≤ k := by omega
        have htake : k - i = (k - (i + 1)) + 1 := by omega
        rw [htake, List.take_succ_cons, List.all_cons] at hstops
        have hcstop := (Bool.and_eq_true _ _).mp hstops
        have hstop : c.finishStop = false := by
          have := hcstop.1
          simp at this
          exact this
        rcases ih e k (i + 1) (if c.content = "" then acc else acc ++ c.content)
            hik' (by simpa [Nat.add_comm, Nat.add_assoc, Nat.add_left_comm] using hlt)
            hcstop.2 with ⟨es, hes⟩
        refine ⟨(if c.content = "" then [] else [c.content]) ++ es, ?_⟩
        rw [runStream]
        have : abortedAt (some k) i = false := by
          simp [abortedAt]
          omega
        rw [this]
        simp only [Bool.false_eq_true, if_false, hstop]
        rw [hes]

/-- The limit error is classified to the user-facing limit message. -/
theorem getErrorMessage_limit :
    getErrorMessage limitError
      = "Você atingiu o limite de mensagens desta conversa. Limpe o chat para continuar." := by
  decide

/-- The empty-completion error text is preserved verbatim by classification. -/
theorem getErrorMessage_emptyCompletion :
    getErrorMessage emptyCompletionError = "Nenhuma resposta foi gerada pelo modelo" := by
  decide

/-- The empty-completion error is not classified as a cancellation by the
catch block's `includes("aborted")` test. -/
theorem emptyCompletion_not_aborted :
    strContains emptyCompletionError.message "aborted" = false := by
  decide

/-- The empty string is whitespace-only. -/
theorem trimEmpty_empty : trimEmpty "" = true := rfl

/-- Unfolding a `sendMessage` run that passes the limit check and obtains a
stream: it is the streaming path applied to the stream's observable result. -/
theorem sendMessage_streaming_eq (st : ChatState) (provHist : List OAIMessage)
    (limit : Nat) (text : String) (now : Nat) (chunks : List Chunk)
    (endE : StreamEnd) (abortAt cancelAt : Option Nat)
    (hL : ¬ st.messages.length > limit) :
    sendMessage st provHist limit text now (.streaming chunks endE abortAt) cancelAt
      = okBranch (st.messages ++ [⟨Role.user, text, now, false⟩])
          ((provHist ++ [⟨Role.user, text⟩]) ++ commitOf (runStream chunks endE abortAt 0 ""))
          (provHist ++ [⟨Role.user, text⟩])
          (runStream chunks endE abortAt 0 "") now cancelAt := by
  simp [sendMessage, hL, providerPrompt]

/-! ### Claim C8 — `init` idempotence / last call wins -/

/-- C8: `init` is idempotent with last-call-wins semantics: after
`init a; init b` the Completion Client history is at most one entry —
a single system entry with content `b` when `b` is non-empty, nothing
when `b` is empty. -/
theorem init_last_call_wins (hist : List OAIMessage) (a b : String) :
    providerInit (providerInit hist a) b = providerInit hist b
    ∧ (providerInit (providerInit hist a) b).length ≤ 1
    ∧ (b ≠ "" → providerInit (providerInit hist a) b = [⟨Role.system, b⟩])
    ∧ (b = "" → providerInit (providerInit hist a) b = []) := by
  refine ⟨rfl, ?_, ?_, ?_⟩
  · unfold providerInit
    by_cases hb : b = "" <;> simp [hb]
  · intro hb
    simp [providerInit, hb]
  · intro hb
    simp [providerInit, hb]

/-- Witness for `init_last_call_wins` at concrete prompts. -/
theorem init_last_call_wins_w :
    providerInit (providerInit [⟨Role.user, "old"⟩] "first") "second"
      = [⟨Role.system, "second"⟩]
    ∧ providerInit (providerInit [] "first") "" = [] := by
  exact ⟨(init_last_call_wins [⟨Role.user, "old"⟩] "first" "second").2.2.1 (by decide),
         (init_last_call_wins [] "first" "").2.2.2 rfl⟩

/-! ### Claim C9 — the user entry survives every failure path of `prompt` -/

/-- C9: every `prompt(text, signal)` call appends `{role:user, content:text}`
to the client history before the completion request is issued (it is part of
the request payload), and no failure path removes it: after any outcome the
history is the old history, then that user entry, then possibly more. -/
theorem prompt_user_entry_kept (hist : List OAIMessage) (text : String)
    (out : PromptOutcome) :
    (providerPrompt hist text out).payload = hist ++ [⟨Role.user, text⟩]
    ∧ ∃ rest, (providerPrompt hist text out).history
        = hist ++ ⟨Role.user, text⟩ :: rest := by
  cases out with
  | createThrows e ab =>
      exact ⟨rfl, [], rfl⟩
  | streaming chunks endE abortAt =>
      refine ⟨rfl, commitOf (runStream chunks endE abortAt 0 ""), ?_⟩
      simp [providerPrompt]

/-! ### Claim C3 — message-limit precondition -/

/-- C3: `sendMessage` is rejected exactly when the count of prior messages is
strictly greater than `limit` (`>`, not `>=`): in that case exactly one
message-limit-reached error message is appended, no network call is made, and
`loading` and the provider history are untouched; when the count is not
greater than `limit`, the network is reached. -/
theorem sendMessage_limit_policy (st : ChatState) (provHist : List OAIMessage)
    (limit : Nat) (text : String) (now : Nat) (out : PromptOutcome)
    (cancelAt : Option Nat) :
    (st.messages.length > limit →
        (sendMessage st provHist limit text now out cancelAt).state.messages
          = st.messages ++ [⟨Role.error,
              "Você atingiu o limite de mensagens desta conversa. Limpe o chat para continuar.",
              now, true⟩]
        ∧ (sendMessage st provHist limit text now out cancelAt).networkCalled = false
        ∧ (sendMessage st provHist limit text now out cancelAt).payload = none
        ∧ (sendMessage st provHist limit text now out cancelAt).state.loading = st.loading
        ∧ (sendMessage st provHist limit text now out cancelAt).provHist = provHist)
    ∧ (¬ st.messages.length > limit →
        (sendMessage st provHist limit text now out cancelAt).networkCalled = true) := by
  constructor
  · intro h
    simp [sendMessage, h, rejectBranch, mkErrorMessage, getErrorMessage_limit]
  · intro h
    cases out <;>
      simp [sendMessage, h, providerPrompt, errorBranch, okBranch]

/-- Witness for `sendMessage_limit_policy`: the spec's own scenario
(`limit = 2`, three prior messages — rejected without a network call) and the
boundary case (`limit = 3`, three prior messages — the network is reached). -/
theorem sendMessage_limit_policy_w :
    (sendMessage
        ⟨[⟨Role.user, "a", 0, false⟩, ⟨Role.assistant, "b", 0, false⟩,
          ⟨Role.user, "c", 0, false⟩], false, []⟩
        [] 2 "next" 1 (.streaming [] .natural none) none).networkCalled = false
    ∧ (sendMessage
        ⟨[⟨Role.user, "a", 0, false⟩, ⟨Role.assistant, "b", 0, false⟩,
          ⟨Role.user, "c", 0, false⟩], false, []⟩
        [] 3 "next" 1 (.streaming [] .natural none) none).networkCalled = true := by
  constructor
  · exact ((sendMessage_limit_policy
      ⟨[⟨Role.user, "a", 0, false⟩, ⟨Role.assistant, "b", 0, false⟩,
        ⟨Role.user, "c", 0, false⟩], false, []⟩
      [] 2 "next" 1 (.streaming [] .natural none) none).1 (by decide)).2.1
  · exact (sendMessage_limit_policy
      ⟨[⟨Role.user, "a", 0, false⟩, ⟨Role.assistant, "b", 0, false⟩,
        ⟨Role.user, "c", 0, false⟩], false, []⟩
      [] 3 "next" 1 (.streaming [] .natural none) none).2 (by decide)

/-! ### Claim C4 — when the placeholder is appended -/

/-- C4 counterexample: in a run that passes the limit check and streams
successfully, the stream request strictly precedes the placeholder append
(the placeholder is created only after `await chatProvider.prompt(...)`
resolves), so the claim that the placeholder is appended before the stream is
requested is false. -/
theorem placeholder_order_ce :
    (sendMessage ⟨[], false, []⟩ [] 10 "hi" 0
        (.streaming [⟨"ok", true⟩] .natural none) none).trace
      = [Ev.appendUser, Ev.requestStream, Ev.appendPlaceholder, Ev.readChunks, Ev.settle]
    ∧ ¬ idxOf Ev.appendPlaceholder
          (sendMessage ⟨[], false, []⟩ [] 10 "hi" 0
            (.streaming [⟨"ok", true⟩] .natural none) none).trace
        < idxOf Ev.requestStream
          (sendMessage ⟨[], false, []⟩ [] 10 "hi" 0
            (.streaming [⟨"ok", true⟩] .natural none) none).trace := by
  decide

/-- C4 as amended: in every run that passes the limit check and obtains a
stream, the placeholder is appended immediately after the user message in the
sequence, but only after the stream request completes and before any fragment
is read. -/
theorem placeholder_after_request (st : ChatState) (provHist : List OAIMessage)
    (limit : Nat) (text : String) (now : Nat) (chunks : List Chunk)
    (endE : StreamEnd) (abortAt cancelAt : Option Nat)
    (hL : ¬ st.messages.length > limit) :
    (sendMessage st provHist limit text now (.streaming chunks endE abortAt) cancelAt).trace
      = [Ev.appendUser, Ev.requestStream, Ev.appendPlaceholder, Ev.readChunks, Ev.settle]
    ∧ (sendMessage st provHist limit text now (.streaming chunks endE abortAt) cancelAt).msgsAtPlaceholder
      = some (st.messages ++ [⟨Role.user, text, now, false⟩, ⟨Role.assistant, "", now, false⟩])
    ∧ idxOf Ev.requestStream
        (sendMessage st provHist limit text now (.streaming chunks endE abortAt) cancelAt).trace
      < idxOf Ev.appendPlaceholder
        (sendMessage st provHist limit text now (.streaming chunks endE abortAt) cancelAt).trace := by
  refine ⟨?_, ?_, ?_⟩ <;>
    simp [sendMessage, hL, providerPrompt, okBranch, idxOf]

/-- Witness for `placeholder_after_request`. -/
theorem placeholder_after_request_w :
    (sendMessage ⟨[], false, []⟩ [] 10 "hi" 0
        (.streaming [⟨"Hel", false⟩] .natural none) none).msgsAtPlaceholder
      = some [⟨Role.user, "hi", 0, false⟩, ⟨Role.assistant, "", 0, false⟩] := by
  have h := (placeholder_after_request ⟨[], false, []⟩ [] 10 "hi" 0
    [⟨"Hel", false⟩] .natural none none (by decide)).2.1
  simpa using h

/-! ### Claim C5 — empty completion -/

/-- C5: a `sendMessage` run whose stream closes having delivered zero
fragments (no user abort interleaved) ends in the empty-completion failure
path: the trailing empty placeholder is removed, exactly one error message is
appended, no assistant message remains for the turn, and `loading` ends
false. -/
theorem empty_completion_failure (st : ChatState) (provHist : List OAIMessage)
    (limit : Nat) (text : String) (now : Nat) (chunks : List Chunk)
    (endE : StreamEnd) (abortAt : Option Nat) (comm : Option String)
    (hL : ¬ st.messages.length > limit)
    (hs : runStream chunks endE abortAt 0 "" = .closed [] comm) :
    (sendMessage st provHist limit text now (.streaming chunks endE abortAt) none).state.messages
      = st.messages ++ [⟨Role.user, text, now, false⟩,
          ⟨Role.error, "Nenhuma resposta foi gerada pelo modelo", now, true⟩]
    ∧ (sendMessage st provHist limit text now (.streaming chunks endE abortAt) none).state.loading
      = false
    ∧ (sendMessage st provHist limit text now (.streaming chunks endE abortAt) none).state.messages.countP
        (fun m => decide (m.role = Role.assistant))
      = st.messages.countP (fun m => decide (m.role = Role.assistant)) := by
  have hmain :
      (sendMessage st provHist limit text now (.streaming chunks endE abortAt) none).state.messages
        = st.messages ++ [⟨Role.user, text, now, false⟩,
            ⟨Role.error, "Nenhuma resposta foi gerada pelo modelo", now, true⟩] := by
    simp [sendMessage, hL, providerPrompt, hs, okBranch, emittedOf, consumeFrags,
      foldFrags, catchHandler, emptyCompletion_not_aborted,
      popIfTrailingEmptyAssistant, List.getLast?_concat, trimEmpty,
      mkErrorMessage, getErrorMessage_emptyCompletion]
  refine ⟨hmain, ?_, ?_⟩
  · simp [sendMessage, hL, providerPrompt, hs, okBranch]
  · rw [hmain]
    simp [List.countP_append, List.countP_cons]

/-- Witness for `empty_completion_failure`: a stream that ends naturally with
zero chunks. -/
theorem empty_completion_failure_w :
    (sendMessage ⟨[], false, []⟩ [] 10 "hi" 0
        (.streaming [] .natural none) none).state.messages
      = [⟨Role.user, "hi", 0, false⟩,
         ⟨Role.error, "Nenhuma resposta foi gerada pelo modelo", 0, true⟩] := by
  have h := (empty_completion_failure ⟨[], false, []⟩ [] 10 "hi" 0
    [] .natural none none (by decide) rfl).1
  simpa using h

/-! ### Claim C6 — what is sent to the completion API -/

/-- C6 counterexample: a session rehydrated from storage with two prior
messages sends `"next"`; the payload handed to the completion call is just the
provider history plus the new user entry and is NOT the session transcript at
send time (the rehydrated messages are absent). -/
theorem payload_transcript_ce :
    (sendMessage
        ⟨[⟨Role.user, "hi", 0, false⟩, ⟨Role.assistant, "yo", 0, false⟩], false, []⟩
        [] 10 "next" 1 (.streaming [⟨"ok", true⟩] .natural none) none).payload
      = some [⟨Role.user, "next"⟩]
    ∧ (sendMessage
        ⟨[⟨Role.user, "hi", 0, false⟩, ⟨Role.assistant, "yo", 0, false⟩], false, []⟩
        [] 10 "next" 1 (.streaming [⟨"ok", true⟩] .natural none) none).payload
      ≠ some [⟨Role.user, "hi"⟩, ⟨Role.assistant, "yo"⟩, ⟨Role.user, "next"⟩] := by
  decide

/-- C6 as amended: for every send that passes the limit check, the ordered
`{role, content}` list passed to the underlying completion call is the
Completion Client's internal history (as seeded by `init` and grown by prior
`prompt` calls) followed by the new user entry — not the Session Core
transcript; rehydrated and error messages never enter it. -/
theorem payload_provider_history (st : ChatState) (provHist : List OAIMessage)
    (limit : Nat) (text : String) (now : Nat) (out : PromptOutcome)
    (cancelAt : Option Nat)
    (hL : ¬ st.messages.length > limit) :
    (sendMessage st provHist limit text now out cancelAt).payload
      = some (provHist ++ [⟨Role.user, text⟩]) := by
  cases out <;>
    simp [sendMessage, hL, providerPrompt, errorBranch, okBranch]

/-- Witness for `payload_provider_history`. -/
theorem payload_provider_history_w :
    (sendMessage ⟨[], false, []⟩ [⟨Role.system, "sys"⟩] 10 "hi" 0
        (.streaming [] .natural none) none).payload
      = some [⟨Role.system, "sys"⟩, ⟨Role.user, "hi"⟩] := by
  have h := payload_provider_history ⟨[], false, []⟩ [⟨Role.system, "sys"⟩] 10 "hi" 0
    (.streaming [] .natural none) none (by decide)
  simpa using h

/-! ### Claim C1 — single-report of cancellation -/

/-- C1 counterexample: the user aborts before any content fragment has been
delivered; the provider stream closes, the read loop ends with `hasContent`
still false, and the non-cancellation catch branch appends an empty-completion
error on top of the cancellation notice already appended by
`abortChatMessage` — two error-role messages for one aborted turn, and the
empty placeholder survives (the trailing message is the notice, not the
placeholder). -/
theorem abort_double_report_ce :
    (sendMessage ⟨[], false, []⟩ [] 10 "hi" 0
        (.streaming [⟨"x", false⟩] .natural (some 0)) (some 0)).state.messages
      = [⟨Role.user, "hi", 0, false⟩, ⟨Role.assistant, "", 0, false⟩,
         ⟨Role.error, "Mensagem cancelada. Você pode enviar uma nova mensagem.", 0, true⟩,
         ⟨Role.error, "Nenhuma resposta foi gerada pelo modelo", 0, true⟩]
    ∧ ((sendMessage ⟨[], false, []⟩ [] 10 "hi" 0
        (.streaming [⟨"x", false⟩] .natural (some 0)) (some 0)).state.messages.countP
          (fun m => decide (m.role = Role.error))) = 2 := by
  decide

/-- C1 as amended: when the abort is observed only after at least one
non-whitespace fragment was delivered and consumed, exactly one error-role
message — the cancellation notice appended by `abortChatMessage` itself — is
appended for the turn, the partial assistant content is kept, and the
in-flight `sendMessage` appends no further error message (if the abort fires
before any non-whitespace fragment, the run instead falls into the
empty-completion branch and a second, non-cancellation error message is
appended — see the counterexample). -/
theorem abort_single_report_after_content (st : ChatState)
    (provHist : List OAIMessage) (limit : Nat) (text : String) (now : Nat)
    (chunks : List Chunk) (endE : StreamEnd) (k : Nat) (es : List String)
    (hL : ¬ st.messages.length > limit)
    (hs : runStream chunks endE (some k) 0 "" = .closed es none)
    (hc : es.any (fun f => !trimEmpty f) = true) :
    (sendMessage st provHist limit text now (.streaming chunks endE (some k))
        (some es.length)).state.messages
      = st.messages ++ [⟨Role.user, text, now, false⟩,
          ⟨Role.assistant, joinStr es, now, false⟩, cancelMessage now]
    ∧ (sendMessage st provHist limit text now (.streaming chunks endE (some k))
        (some es.length)).state.loading = false
    ∧ ((sendMessage st provHist limit text now (.streaming chunks endE (some k))
        (some es.length)).state.messages.drop st.messages.length).countP
          (fun m => decide (m.role = Role.error)) = 1 := by
  have hcf : ∀ msgs0 : List Message, consumeFrags now es (some es.length)
      (msgs0 ++ [⟨Role.assistant, "", now, false⟩])
      = (msgs0 ++ [⟨Role.assistant, joinStr es, now, false⟩] ++ [cancelMessage now], true) := by
    intro msgs0
    simp only [consumeFrags, List.take_length, List.drop_length]
    rw [foldFrags_assistant es msgs0 ⟨Role.assistant, "", now, false⟩ rfl false]
    simp [foldFrags, hc]
  have hmain :
      (sendMessage st provHist limit text now (.streaming chunks endE (some k))
          (some es.length)).state.messages
        = st.messages ++ [⟨Role.user, text, now, false⟩,
            ⟨Role.assistant, joinStr es, now, false⟩, cancelMessage now] := by
    rw [sendMessage_streaming_eq st provHist limit text now chunks endE (some k)
      (some es.length) hL, hs]
    simp only [okBranch, emittedOf]
    rw [hcf (st.messages ++ [({ role := Role.user, content := text, timestamp := now, isErr := false } : Message)])]
    simp
  refine ⟨hmain, ?_, ?_⟩
  · rw [sendMessage_streaming_eq st provHist limit text now chunks endE (some k)
      (some es.length) hL]
    simp [okBranch]
  · rw [hmain]
    rw [List.drop_left]
    simp [List.countP_cons, cancelMessage]

/-- Witness for `abort_single_report_after_content`: abort observed at the
second chunk, after `"Hel"` was delivered and consumed. -/
theorem abort_single_report_after_content_w :
    (sendMessage ⟨[], false, []⟩ [] 10 "hi" 0
        (.streaming [⟨"Hel", false⟩, ⟨"x", false⟩] .natural (some 1)) (some 1)).state.messages
      = [⟨Role.user, "hi", 0, false⟩, ⟨Role.assistant, joinStr ["Hel"], 0, false⟩,
         cancelMessage 0] := by
  have h := (abort_single_report_after_content ⟨[], false, []⟩ [] 10 "hi" 0
    [⟨"Hel", false⟩, ⟨"x", false⟩] .natural 1 ["Hel"]
    (by decide) (by decide) (by decide)).1
  simpa using h

/-! ### Claim C10 — whitespace-only content is treated as empty -/

/-- C10: a stream whose delivered fragments are all whitespace-only (and
non-empty, so fragments did arrive and were concatenated into the
placeholder) ends in the empty-completion error: `hasContent` is set only by
a chunk that is non-empty after trimming, and the failure-path pop removes
the trailing assistant message because its accumulated content is
whitespace-only — the whitespace chunks are discarded. -/
theorem whitespace_only_discarded (st : ChatState) (provHist : List OAIMessage)
    (limit : Nat) (text : String) (now : Nat) (chunks : List Chunk)
    (endE : StreamEnd) (es : List String) (comm : Option String)
    (hL : ¬ st.messages.length > limit)
    (hs : runStream chunks endE none 0 "" = .closed es comm)
    (_hne : es ≠ [])
    (hws : (es.all fun f => trimEmpty f) = true) :
    (sendMessage st provHist limit text now (.streaming chunks endE none) none).state.messages
      = st.messages ++ [⟨Role.user, text, now, false⟩,
          ⟨Role.error, "Nenhuma resposta foi gerada pelo modelo", now, true⟩]
    ∧ (sendMessage st provHist limit text now (.streaming chunks endE none) none).state.loading
      = false := by
  have hall := List.all_eq_true.mp hws
  have hany : (es.any fun f => !trimEmpty f) = false := by
    rw [List.any_eq_false]
    intro f hf
    simp [hall f hf]
  have hjoin : trimEmpty (joinStr es) = true := trimEmpty_join es hall
  have hcf : ∀ msgs0 : List Message, consumeFrags now es none
      (msgs0 ++ [⟨Role.assistant, "", now, false⟩])
      = (msgs0 ++ [⟨Role.assistant, joinStr es, now, false⟩], false) := by
    intro msgs0
    simp only [consumeFrags]
    rw [foldFrags_assistant es msgs0 ⟨Role.assistant, "", now, false⟩ rfl false]
    simp [hany]
  constructor
  · rw [sendMessage_streaming_eq st provHist limit text now chunks endE none none hL, hs]
    simp only [okBranch, emittedOf]
    rw [hcf (st.messages ++ [({ role := Role.user, content := text, timestamp := now, isErr := false } : Message)])]
    simp [catchHandler, emptyCompletion_not_aborted, popIfTrailingEmptyAssistant,
      List.getLast?_concat, hjoin, mkErrorMessage, getErrorMessage_emptyCompletion]
  · rw [sendMessage_streaming_eq st provHist limit text now chunks endE none none hL]
    simp [okBranch]

/-- Witness for `whitespace_only_discarded`: a single space fragment. -/
theorem whitespace_only_discarded_w :
    (sendMessage ⟨[], false, []⟩ [] 10 "hi" 0
        (.streaming [⟨" ", false⟩] .natural none) none).state.messages
      = [⟨Role.user, "hi", 0, false⟩,
         ⟨Role.error, "Nenhuma resposta foi gerada pelo modelo", 0, true⟩] := by
  have h := (whitespace_only_discarded ⟨[], false, []⟩ [] 10 "hi" 0
    [⟨" ", false⟩] .natural [" "] (some " ")
    (by decide) (by decide) (by decide) (by decide)).1
  simpa using h

/-! ### Claim C2 — what the provider commits to its history -/

/-- C2 counterexample: cancellation observed after `"Hel"` was accumulated:
the stream closes without committing any assistant entry, even though content
fragments were accumulated — the provider history holds only the user
entry. -/
theorem cancel_commit_ce :
    (providerPrompt [] "hi"
        (.streaming [⟨"Hel", false⟩, ⟨"lo", false⟩] .natural (some 1))).history
      = [⟨Role.user, "hi"⟩]
    ∧ (providerPrompt [] "hi"
        (.streaming [⟨"Hel", false⟩, ⟨"lo", false⟩] .natural (some 1))).result
      = Except.ok (StreamResult.closed ["Hel"] none) := by
  exact ⟨rfl, rfl⟩

/-- C2 as amended: on natural stream termination, the accumulated content (the
concatenation of all emitted fragments, when any were emitted) is committed to
the Completion Client history as exactly one assistant entry; but when
cancellation is observed at some chunk before the iterator is exhausted (and
no stop marker preceded it), no assistant entry is added to history at all —
whether or not content had been accumulated.  Cancellation before any content
is the `k = 0` special case. -/
theorem prompt_stream_commit (hist : List OAIMessage) (text : String)
    (chunks : List Chunk) (endE : StreamEnd) :
    (∀ es comm, runStream chunks endE none 0 "" = .closed es comm → es ≠ [] →
        (providerPrompt hist text (.streaming chunks endE none)).history
          = hist ++ [⟨Role.user, text⟩, ⟨Role.assistant, joinStr es⟩])
    ∧ (∀ k, k < chunks.length →
        ((chunks.take k).all fun c => !c.finishStop) = true →
        (providerPrompt hist text (.streaming chunks endE (some k))).history
          = hist ++ [⟨Role.user, text⟩]) := by
  constructor
  · intro es comm hrun hne
    have hcomm : comm = some (joinStr es) := by
      rcases runStream_closed_commit chunks endE 0 "" es comm hrun with hsome | ⟨_, hempty⟩
      · simpa using hsome
      · exfalso
        rcases es with _ | ⟨h0, t⟩
        · exact hne rfl
        · have hh : h0 ≠ "" := runStream_emitted_nonempty chunks endE none 0 "" h0
            (by rw [hrun]; simp [emittedOf])
          exact append_ne_empty_left h0 (joinStr t) hh (by simpa [joinStr] using hempty)
    simp [providerPrompt, hrun, hcomm, commitOf]
  · intro k hk hstops
    obtain ⟨es, hes⟩ := runStream_abort_no_commit chunks endE k 0 ""
      (Nat.zero_le k) (by simpa using hk) (by simpa using hstops)
    simp [providerPrompt, hes, commitOf]

/-- Witness for `prompt_stream_commit`: natural termination commits
`"Hel" ++ "lo"`; cancellation at the second chunk commits nothing. -/
theorem prompt_stream_commit_w :
    (providerPrompt [] "hi"
        (.streaming [⟨"Hel", false⟩, ⟨"lo", false⟩] .natural none)).history
      = [⟨Role.user, "hi"⟩, ⟨Role.assistant, joinStr ["Hel", "lo"]⟩]
    ∧ (providerPrompt [] "hi"
        (.streaming [⟨"Hel", false⟩, ⟨"lo", false⟩] .natural (some 1))).history
      = [⟨Role.user, "hi"⟩] := by
  constructor
  · have h := (prompt_stream_commit [] "hi" [⟨"Hel", false⟩, ⟨"lo", false⟩] .natural).1
      ["Hel", "lo"] (some "Hello") (by decide) (by decide)
    simpa using h
  · have h := (prompt_stream_commit [] "hi" [⟨"Hel", false⟩, ⟨"lo", false⟩] .natural).2
      1 (by decide) (by decide)
    simpa using h

/-! ### Claim C7 — `load()` soft-fail behaviour -/

/-- C7 counterexample: the stored text `"true"` is valid JSON that is not a
message array; `load()` does not throw, but it returns the parsed boolean
unvalidated — neither the saved sequence nor the empty sequence, and not a
message sequence at all. -/
theorem load_unvalidated_ce :
    getMessages (some "true") = Json.bool true
    ∧ jsonToMsgs (getMessages (some "true")) = none := by
  exact ⟨rfl, rfl⟩

/-- C7 as amended: `load()` never throws; it returns the empty sequence when
the snapshot is absent, empty, or syntactically invalid JSON (the parse
failure is caught), and whatever well-formed snapshot was saved when one is
present; but a stored value that is valid JSON of the wrong shape is returned
unvalidated rather than as the empty sequence. -/
theorem load_soft_fail (s : String) (v : Json) :
    getMessages none = Json.arr []
    ∧ getMessages (some "") = Json.arr []
    ∧ (jsonParse s = none → getMessages (some s) = Json.arr [])
    ∧ (s ≠ "" → jsonParse s = some v → getMessages (some s) = v) := by
  refine ⟨rfl, rfl, ?_, ?_⟩
  · intro h
    by_cases hs : s = ""
    · subst hs
      rfl
    · simp [getMessages, hs, h]
  · intro hs h
    simp [getMessages, hs, h]

/-- Witness for `load_soft_fail`: a syntactically invalid snapshot falls back
to the empty array; a well-formed array round-trips through the parser. -/
theorem load_soft_fail_w :
    getMessages (some "tru") = Json.arr []
    ∧ getMessages (some "[1]") = Json.arr [Json.num 1] := by
  constructor
  · exact (load_soft_fail "tru" Json.null).2.2.1 rfl
  · exact (load_soft_fail "[1]" (Json.arr [Json.num 1])).2.2.2 (by decide) rfl

end Chatbot
